import Mathlib

/-!
Shallow embedding of the DXR request-handling core (`src/dxr/app.py`).

The pure decision logic of the Flask views is translated into Lean
functions.  External collaborators (the Elasticsearch index, the on-disk
artifact store, template rendering) are passed in as explicit function
parameters, exactly at the interface boundaries the views use them:

  * `results : Nat → Nat → Except BadTerm (List SearchHit)` stands for
    `query.results(offset, limit)`, which either yields a result page or
    raises `BadTerm`;
  * `direct : Option (String × Nat)` stands for `query.direct_result()`;
  * `isdir`, `isfile` stand for `os.path.isdir` / `os.path.isfile`;
  * `listing : String → String → List EsEntry` stands for the
    folder-listing Elasticsearch query (alias, parent-folder path).

Responses are modelled by the inductive `Resp`; a request that escapes the
view as an uncaught Python exception (as opposed to a werkzeug
`NotFound`, which the framework renders as a well-formed 404 page) is the
`Outcome.unhandled` constructor.
-/

/-- `BadTerm` exception from `dxr.exceptions`: the index rejected a query
term; carries a human-readable reason. -/
structure BadTerm where
  reason : String
deriving DecidableEq

/-- One search hit as consumed by `_search_json` / `_search_html`:
`(icon, path, lines)` with `lines` a list of `(line_number, line)`. -/
structure SearchHit where
  icon : String
  path : String
  lines : List (Nat × String)
deriving DecidableEq

/-- Query-string parameters of the per-tree search link built by
`_tree_tuples` via `url_for('.search', tree=t, q=query_text,
**({'case': 'true'} if is_case_sensitive else {}))`. -/
structure SearchLinkParams where
  tree : String
  q : String
  case : Option String
deriving DecidableEq

/-- Query-string parameters of the `search_url` template variable built in
`_search_html` via `url_for('.search', tree=tree, q=query_text,
redirect='false')`. -/
structure SearchUrlParams where
  tree : String
  q : String
  redirect : String
deriving DecidableEq

/-- One raw entry of the folder-listing Elasticsearch query in `browse`
(fields of the `_source` documents that the view reads). -/
structure EsEntry where
  name : String
  is_folder : Bool
  modified : Option String
  size : Option Nat
  path : List String
deriving DecidableEq

/-- One row of the rendered folder listing: `('folder' | icon(name), name,
modified, size, browse-link path)` as built at the bottom of `browse`. -/
structure FolderItem where
  icon : String
  name : String
  modified : Option String
  size : Option Nat
  linkPath : String
deriving DecidableEq

/-- Template variables of `folder.html` that `browse` computes itself
(configuration pass-throughs that only feed markup rendering are kept as
the strings the view copies; `paths_and_names`, produced by the external
`dxr.build.linked_pathname`, is outside this core). Parallel links are
kept as their `(tree, path)` parameters. -/
structure FolderVars where
  wwwroot : String
  tree : String
  tree_tuples : List (String × String × String × String)
  should_autofocus_query : Bool
  name : String
  path : String
  data_path : List String
  files_and_folders : List FolderItem
deriving DecidableEq

/-- Template variables shared by `search.html` and `error.html` in
`_search_html` (the `template_vars` dict; configuration blobs that only
feed rendering, `filters`/`generated_date`/`google_analytics_key`,
are external and omitted). -/
structure SearchVars where
  is_case_sensitive : Bool
  query : String
  search_url : SearchUrlParams
  tree : String
  tree_tuples : List (String × SearchLinkParams × String)
  wwwroot : String
deriving DecidableEq

/-- A response leaving the view layer.  `jsonErr`/`jsonResults` are the
two `jsonify` shapes of `_search_json`; `errorPage`/`searchPage`/
`folderPage` are `render_template` calls with their HTTP status;
`redirect` carries the Location string; `served` is
`send_from_directory`; `notFound` is a raised werkzeug `NotFound`
(rendered by the framework as a well-formed 404 page). -/
inductive Resp where
  | jsonErr (error_html error_level : String) (status : Nat)
  | jsonResults (wwwroot tree : String) (results : List SearchHit)
      (tree_tuples : List (String × SearchLinkParams × String)) (status : Nat)
  | errorPage (error_html : String) (vars : SearchVars) (status : Nat)
  | searchPage (results : List SearchHit) (vars : SearchVars) (status : Nat)
  | folderPage (vars : FolderVars) (status : Nat)
  | redirect (location : String)
  | served (file : String)
  | notFound (msg : Option String)
deriving DecidableEq

/-- Outcome of running a view: a response (possibly an orderly 404), or a
Python exception escaping unhandled (e.g. a `KeyError`). -/
inductive Outcome where
  | ok (r : Resp)
  | unhandled (err : String)
deriving DecidableEq

/-- The process-wide configuration the views read: `TREES` (an ordered
name → description mapping), `ES_ALIASES`, `WWW_ROOT`, `DEFAULT_TREE`,
and the Flask instance path. -/
structure Config where
  trees : List (String × String)
  esAliases : List (String × String)
  wwwRoot : String
  defaultTree : String
  instancePath : String
deriving DecidableEq

/-- Python dict lookup on an association list (`d[k]` / `k in d`). -/
def lookupStr (l : List (String × String)) (k : String) : Option String :=
  (l.find? (fun kv => kv.1 == k)).map (fun kv => kv.2)

/-! Python-style string primitives, written over the underlying character
list by structural recursion so that concrete instances evaluate inside
the kernel. -/

/-- `c in s` for a single character. -/
def strContains (s : String) (c : Char) : Bool :=
  s.data.contains c

/-- Python `s.startswith(p)`. -/
def strStartsWith (s p : String) : Bool :=
  p.data.isPrefixOf s.data

/-- Python `s.endswith(p)`. -/
def strEndsWith (s p : String) : Bool :=
  p.data.isSuffixOf s.data

/-- Python `s.lower()`. -/
def strLower (s : String) : String :=
  ⟨s.data.map Char.toLower⟩

/-- Python `s.strip()`. -/
def strTrim (s : String) : String :=
  ⟨((s.data.dropWhile Char.isWhitespace).reverse.dropWhile Char.isWhitespace).reverse⟩

/-- The string without its first character. -/
def strDropOne (s : String) : String :=
  ⟨s.data.drop 1⟩

/-- Python `s == ''`. -/
def strIsEmpty (s : String) : Bool :=
  s.data.isEmpty

/-- Split a character list at every occurrence of `sep` (Python
`str.split(sep)` semantics: the empty list yields one empty group). -/
def splitChar (sep : Char) : List Char → List (List Char)
  | [] => [[]]
  | c :: rest =>
    match splitChar sep rest with
    | [] => [[c]]
    | g :: gs => if c == sep then [] :: g :: gs else (c :: g) :: gs

/-- Python `s.split('/')`. -/
def splitSlash (s : String) : List String :=
  (splitChar '/' s.data).map (fun g => ⟨g⟩)

/-- Split at the first occurrence of `sep` (Python `s.split(sep, 1)`);
the second component is empty when `sep` does not occur. -/
def breakAtChar (sep : Char) : List Char → List Char × List Char
  | [] => ([], [])
  | c :: rest =>
    if c == sep then ([], rest)
    else
      let r := breakAtChar sep rest
      (c :: r.1, r.2)

/-- `os.path.join` for the two-argument uses in `app.py`. -/
def pathJoin (a b : String) : String :=
  if strStartsWith b "/" then b
  else if a = "" ∨ strEndsWith a "/" then a ++ b
  else a ++ "/" ++ b

/-! ### Content negotiation (`_request_wants_json`)

`_request_wants_json` uses werkzeug's `MIMEAccept`:
`request.accept_mimetypes.best_match(['application/json', 'text/html'])`
and the quality lookups `accept_mimetypes[best]` /
`accept_mimetypes['text/html']`.  An `AcceptItem` is one parsed
`(media type, quality)` entry of the Accept header; werkzeug hands the
view the parsed list sorted by descending quality. -/

/-- One parsed entry of the client's Accept header. -/
structure AcceptItem where
  mediaType : String
  q : ℚ
deriving DecidableEq

/-- werkzeug `MIMEAccept._value_matches`'s `_normalize`: lowercase and
split on the first '/' (the bare `'*'` shorthand denotes `*/*`). -/
def splitMime (x : String) : String × String :=
  let y := strLower x
  if y = "*" then ("*", "*")
  else (⟨(breakAtChar '/' y.data).1⟩, ⟨(breakAtChar '/' y.data).2⟩)

/-- werkzeug `MIMEAccept._value_matches value item`: does the client
entry `item` accept the server media type `value`? -/
def valueMatches (value item : String) : Bool :=
  if ¬ strContains item '/' then false
  else
    let itemType := (splitMime item).1
    let itemSub := (splitMime item).2
    if itemType == "*" && itemSub != "*" then false
    else
      let valueType := (splitMime value).1
      let valueSub := (splitMime value).2
      (itemType == "*" && itemSub == "*") ||
      (valueType == "*" && valueSub == "*") ||
      (itemType == valueType && (itemSub == "*" || valueSub == "*" || itemSub == valueSub))

/-- werkzeug `Accept.quality` (the `accept[mimetype]` lookup): quality of
the first entry that matches, 0 when none does. -/
def quality : List AcceptItem → String → ℚ
  | [], _ => 0
  | it :: rest, key => if valueMatches key it.mediaType then it.q else quality rest key

/-- One step of the inner loop of werkzeug `Accept.best_match`: state is
`(best_quality, result)`; a client entry updates it when its quality
beats the current best, it matches the server item, and it is positive. -/
def bmStep (si : String) (st : ℚ × Option String) (ci : AcceptItem) : ℚ × Option String :=
  if ci.q ≤ st.1 then st
  else if valueMatches si ci.mediaType ∧ 0 < ci.q then (ci.q, some si) else st

/-- The inner loop of `best_match` over all client entries for one server
item. -/
def bestOf (a : List AcceptItem) (st : ℚ × Option String) (si : String) : ℚ × Option String :=
  a.foldl (bmStep si) st

/-- werkzeug `Accept.best_match(matches)`, starting from quality -1 and
result `None`. -/
def bestMatch (a : List AcceptItem) (serverItems : List String) : Option String :=
  (serverItems.foldl (bestOf a) (-1, none)).2

/-- `_request_wants_json`: best match of `['application/json',
'text/html']` is JSON and the client's JSON quality strictly exceeds its
HTML quality. -/
def requestWantsJson (a : List AcceptItem) : Bool :=
  decide (bestMatch a ["application/json", "text/html"] = some "application/json") &&
  decide (quality a "text/html" < quality a "application/json")

/-! ### Parameter normalization (`search`, lines 73-76) -/

/-- Numeric value of a string of decimal digits. -/
def digitsVal (cs : List Char) : Nat :=
  cs.foldl (fun n c => n * 10 + (c.toNat - 48)) 0

/-- Python `int(s)` on a string: optional surrounding whitespace, an
optional single sign, then at least one decimal digit; `none` models a
`ValueError`. -/
def pyInt (s : String) : Option Int :=
  let t := strTrim s
  if strIsEmpty t then none
  else
    let sign : Int := if strStartsWith t "-" then -1 else 1
    let digits := if strStartsWith t "-" ∨ strStartsWith t "+" then strDropOne t else t
    if ¬ strIsEmpty digits ∧ digits.data.all Char.isDigit then some (sign * digitsVal digits.data)
    else none

/-- Modelled from the spec: `non_negative_int` lives in `dxr/utils.py`,
which is not under `src/`.  §4.1's defaulting policy: the parsed value
when the raw parameter parses as a non-negative integer, otherwise the
default (a missing parameter, Python `None`, also yields the default). -/
def non_negative_int (s : Option String) (default : Nat) : Nat :=
  match s with
  | none => default
  | some str =>
    match pyInt str with
    | some i => if 0 ≤ i then i.toNat else default
    | none => default

/-- `offset = non_negative_int(req.get('offset'), 0)` (line 74). -/
def normalizedOffset (o : Option String) : Nat :=
  non_negative_int o 0

/-- `limit = min(non_negative_int(req.get('limit'), 100), 1000)`
(line 75). -/
def normalizedLimit (l : Option String) : Nat :=
  min (non_negative_int l 100) 1000

/-- `query_text = req.get('q', '')` (line 73). -/
def normQ (o : Option String) : String :=
  o.getD ""

/-- `is_case_sensitive = req.get('case') == 'true'` (line 76). -/
def normCase (o : Option String) : Bool :=
  o == some "true"

/-! ### The search views -/

/-- `_tree_tuples(trees, tree, query_text, is_case_sensitive)`: one
`(name, search link, description)` triple per known tree, carrying the
query forward; the `case` parameter is only serialized when the query is
case-sensitive. -/
def _tree_tuples (trees : List (String × String)) (tree : String) (query_text : String)
    (is_case_sensitive : Bool) : List (String × SearchLinkParams × String) :=
  trees.map fun td =>
    (td.1, ⟨td.1, query_text, if is_case_sensitive then some "true" else none⟩, td.2)

/-- `_search_json`: run the bounded search; a `BadTerm` becomes a 400
JSON error object, success the JSON result envelope. -/
def searchJson (results : Nat → Nat → Except BadTerm (List SearchHit)) (tree query_text : String)
    (is_case_sensitive : Bool) (offset limit : Nat) (cfg : Config) : Resp :=
  match results offset limit with
  | Except.error exc => Resp.jsonErr exc.reason "warning" 400
  | Except.ok rs =>
      Resp.jsonResults cfg.wwwRoot tree rs
        (_tree_tuples cfg.trees tree query_text is_case_sensitive) 200

/-- The `template_vars` dict of `_search_html`. -/
def htmlTemplateVars (tree query_text : String) (is_case_sensitive : Bool) (cfg : Config) :
    SearchVars :=
  { is_case_sensitive := is_case_sensitive
    query := query_text
    search_url := ⟨tree, query_text, "false"⟩
    tree := tree
    tree_tuples := _tree_tuples cfg.trees tree query_text is_case_sensitive
    wwwroot := cfg.wwwRoot }

/-- The "normal search" tail of `_search_html`: run the bounded search; a
`BadTerm` renders `error.html` with status 400, success renders
`search.html`. -/
def htmlNormalSearch (results : Nat → Nat → Except BadTerm (List SearchHit))
    (tree query_text : String) (is_case_sensitive : Bool) (offset limit : Nat) (cfg : Config) :
    Resp :=
  match results offset limit with
  | Except.error exc => Resp.errorPage exc.reason (htmlTemplateVars tree query_text is_case_sensitive cfg) 400
  | Except.ok rs => Resp.searchPage rs (htmlTemplateVars tree query_text is_case_sensitive cfg) 200

/-- `should_redirect = request.values.get('redirect') == 'true'`
(line 114). -/
def shouldRedirect (redirectParam : Option String) : Bool :=
  redirectParam == some "true"

/-- `_search_html`: when the caller asked for redirect behavior, try the
direct result first and redirect to its source line on a hit; otherwise
fall through to the normal search. -/
def searchHtml (direct : Option (String × Nat))
    (results : Nat → Nat → Except BadTerm (List SearchHit)) (redirectParam : Option String)
    (tree query_text : String) (is_case_sensitive : Bool) (offset limit : Nat) (cfg : Config) :
    Resp :=
  if shouldRedirect redirectParam then
    match direct with
    | some pl =>
        Resp.redirect (cfg.wwwRoot ++ "/" ++ tree ++ "/source/" ++ pl.1 ++ "?from=" ++ query_text
          ++ (if is_case_sensitive then "&case=true" else "") ++ "#" ++ toString pl.2)
    | none => htmlNormalSearch results tree query_text is_case_sensitive offset limit cfg
  else htmlNormalSearch results tree query_text is_case_sensitive offset limit cfg

/-- All raw inputs of the `search` view: querystring parameters and the
parsed Accept header. -/
structure RawRequest where
  q : Option String
  offset : Option String
  limit : Option String
  case : Option String
  redirect : Option String
  accept : List AcceptItem

/-- The `search` view: 404 when the tree is not registered, then
normalize parameters, build the query against the tree's index alias
(`config['ES_ALIASES'][tree]`, a `KeyError` when absent), and dispatch on
the Accept header.  `res` abstracts the index: alias ↦ paged results. -/
def searchRoute (cfg : Config) (res : String → Nat → Nat → Except BadTerm (List SearchHit))
    (direct : Option (String × Nat)) (req : RawRequest) (tree : String) : Outcome :=
  if (lookupStr cfg.trees tree).isNone then
    Outcome.ok (Resp.notFound (some ("No such tree as " ++ tree)))
  else
    match lookupStr cfg.esAliases tree with
    | none => Outcome.unhandled "KeyError"
    | some al =>
      let query_text := normQ req.q
      let offset := normalizedOffset req.offset
      let limit := normalizedLimit req.limit
      let is_case_sensitive := normCase req.case
      Outcome.ok
        (if requestWantsJson req.accept then
          searchJson (res al) tree query_text is_case_sensitive offset limit cfg
        else
          searchHtml direct (res al) req.redirect tree query_text is_case_sensitive offset limit cfg)

/-! ### Browsing (`browse`, `tree_root`, `parallel`) -/

/-- `_tree_folder(tree)`: `join(instance_path, 'trees', tree)`. -/
def _tree_folder (instancePath tree : String) : String :=
  pathJoin (pathJoin instancePath "trees") tree

/-- `_html_file_path(tree_folder, url_path)`: `none` models the raised
`NotFound` for a directory; otherwise the url path plus the `.html`
suffix (whether or not such a file exists). -/
def _html_file_path (isdir : String → Bool) (tree_folder url_path : String) : Option String :=
  if isdir (pathJoin tree_folder url_path) then none
  else some (url_path ++ ".html")

/-- The breadcrumb loop of `browse` (lines 201-207): fold over the
segments of `path.split('/')`, appending the first segment bare and every
later one as `appended_paths[-1] + "/" + segment`. -/
def crumbStep (ap : List String) (p : String) : List String :=
  if ap.isEmpty then ap ++ [p] else ap ++ [ap.getLastD "" ++ "/" ++ p]

/-- `appended_paths` as computed in `browse`. -/
def appendedPaths (data_paths : List String) : List String :=
  data_paths.foldl crumbStep []

/-- `os.path.basename` for '/'-separated paths. -/
def pyBasename (p : String) : String :=
  (splitSlash p).getLastD ""

/-- The `folder.html` template variables built at the end of `browse` for
a non-empty listing. -/
def folderVars (cfg : Config) (iconFn : String → String) (tree path : String)
    (files_and_folders : List EsEntry) : FolderVars :=
  { wwwroot := cfg.wwwRoot
    tree := tree
    tree_tuples := cfg.trees.map (fun td => (td.1, td.1, path, td.2))
    should_autofocus_query := path == ""
    name := if pyBasename path == "" then tree else pyBasename path
    path := path
    data_path := appendedPaths (splitSlash path)
    files_and_folders := files_and_folders.map (fun f =>
      { icon := if f.is_folder then "folder" else iconFn f.name
        name := f.name
        modified := f.modified
        size := f.size
        linkPath := f.path.headD "" }) }

/-- The `browse` view: try to serve the prerendered `path + '.html'`
artifact from the tree folder; on the `NotFound` from that (a directory,
or no such file) fall back to the index-backed folder listing under the
tree's ES alias (`config['ES_ALIASES'][tree]`, a `KeyError` when
absent); an empty listing re-raises `NotFound`. -/
def browse (cfg : Config) (isdir isfile : String → Bool)
    (listing : String → String → List EsEntry) (iconFn : String → String)
    (tree : String) (path : String) : Outcome :=
  let tree_folder := _tree_folder cfg.instancePath tree
  let fileAttempt : Option String :=
    match _html_file_path isdir tree_folder path with
    | some fp => if isfile (pathJoin tree_folder fp) then some fp else none
    | none => none
  match fileAttempt with
  | some fp => Outcome.ok (Resp.served (pathJoin tree_folder fp))
  | none =>
    match lookupStr cfg.esAliases tree with
    | none => Outcome.unhandled "KeyError"
    | some al =>
      let files_and_folders := listing al path
      if files_and_folders.isEmpty then Outcome.ok (Resp.notFound none)
      else Outcome.ok (Resp.folderPage (folderVars cfg iconFn tree path files_and_folders) 200)

/-- The `tree_root` view: `redirect(tree + '/source/')`. -/
def tree_root (tree : String) : Resp :=
  Resp.redirect (tree ++ "/source/")

/-- The `parallel` view: compute `disk_path` via `_html_file_path`
(`None` when the path is a directory); redirect to the parallel source
path when the path is a directory or the prerendered artifact exists,
else to the tree's source root — both prefixed with `WWW_ROOT`. -/
def parallel (cfg : Config) (isdir isfile : String → Bool) (tree path : String) : Resp :=
  let tree_folder := _tree_folder cfg.instancePath tree
  let disk_path : Option String := _html_file_path isdir tree_folder path
  match disk_path with
  | none => Resp.redirect (cfg.wwwRoot ++ "/" ++ tree ++ "/source/" ++ path)
  | some dp =>
    if isfile (pathJoin tree_folder dp) then
      Resp.redirect (cfg.wwwRoot ++ "/" ++ tree ++ "/source/" ++ path)
    else
      Resp.redirect (cfg.wwwRoot ++ "/" ++ tree ++ "/source/")

/-! ### Spec-side auxiliary definitions and concrete fixtures -/

/-- The '/'-join of a list of path segments (the spec's reading of the
breadcrumb invariant). -/
def joinSlash : List String → String
  | [] => ""
  | [s] => s
  | s :: rest => s ++ "/" ++ joinSlash rest

/-- Running breadcrumb paths continuing from a joined head `L`: used to
characterize the fold in `appendedPaths`. -/
def crumbsFrom (L : String) : List String → List String
  | [] => []
  | p :: ps => (L ++ "/" ++ p) :: crumbsFrom (L ++ "/" ++ p) ps

/-- Best matching quality of a server item over the whole client list
(0 when nothing matches): the value werkzeug's `best_match` inner loop
settles on. -/
def mq : List AcceptItem → String → ℚ
  | [], _ => 0
  | it :: rest, si => if valueMatches si it.mediaType then max it.q (mq rest si) else mq rest si

/-- A concrete configuration with a single registered tree. -/
def cfgMoz : Config :=
  { trees := [("moz", "Mozilla")]
    esAliases := [("moz", "dxr_moz")]
    wwwRoot := "/www"
    defaultTree := "moz"
    instancePath := "/inst" }

/-- An index collaborator that always succeeds with an empty page. -/
def okEmptyResults : Nat → Nat → Except BadTerm (List SearchHit) :=
  fun _ _ => Except.ok []

/-- An index collaborator that always rejects the query term. -/
def badTermResults : Nat → Nat → Except BadTerm (List SearchHit) :=
  fun _ _ => Except.error ⟨"Bad term: <code>regexp:(</code>"⟩

/-- A disk on which nothing exists. -/
def noDisk : String → Bool :=
  fun _ => false

/-- An index folder-listing collaborator that always returns no entries. -/
def emptyListing : String → String → List EsEntry :=
  fun _ _ => []

/-- A fixed `dxr.mime.icon` stand-in. -/
def plainIcon : String → String :=
  fun _ => "unknown"

/-- The rational 4/5, written as a raw numerator/denominator pair so that
concrete negotiation examples evaluate inside the kernel. -/
def q45 : ℚ := ⟨4, 5, by decide, by decide⟩

/-- Accept header of a browser that accepts everything equally:
`Accept: */*`. -/
def acceptWildcard : List AcceptItem := [⟨"*/*", 1⟩]

/-- Accept header giving JSON and HTML equal weights:
`Accept: application/json;q=0.8, text/html;q=0.8`. -/
def acceptEqual : List AcceptItem := [⟨"application/json", q45⟩, ⟨"text/html", q45⟩]

/-- Accept header of a JSON-only client: `Accept: application/json`. -/
def acceptJsonOnly : List AcceptItem := [⟨"application/json", 1⟩]

/-- A raw request with no querystring parameters and an empty Accept
header. -/
def emptyReq : RawRequest :=
  { q := none, offset := none, limit := none, case := none, redirect := none, accept := [] }

/-- An alias-indexed index collaborator that always succeeds with an
empty page. -/
def okResultsByAlias : String → Nat → Nat → Except BadTerm (List SearchHit) :=
  fun _ _ _ => Except.ok []

/-! ### Lemmas about the negotiation loop -/

/-- The settled best quality is never negative. -/
theorem mq_nonneg (a : List AcceptItem) (si : String) : 0 ≤ mq a si := by
  induction a with
  | nil => simp [mq]
  | cons it rest ih =>
    simp only [mq]
    split
    · exact le_trans ih (le_max_right _ _)
    · exact ih

/-- A nonnegative bound on all entry qualities bounds `mq`. -/
theorem mq_le_of_bound (a : List AcceptItem) (si : String) (B : ℚ) (hB : 0 ≤ B)
    (h : ∀ it ∈ a, it.q ≤ B) : mq a si ≤ B := by
  induction a with
  | nil => simpa [mq] using hB
  | cons it rest ih =>
    simp only [mq]
    have h1 : it.q ≤ B := h it (by simp)
    have h2 : mq rest si ≤ B := ih (fun x hx => h x (by simp [hx]))
    split
    · exact max_le h1 h2
    · exact h2

/-- The inner loop of `best_match` settles on the best matching positive
quality when that beats the incoming state, and leaves the state alone
otherwise. -/
theorem bestOf_eq (a : List AcceptItem) (si : String) :
    ∀ st : ℚ × Option String,
      bestOf a st si = if st.1 < mq a si ∧ 0 < mq a si then (mq a si, some si) else st := by
  induction a with
  | nil =>
    intro st
    rw [mq, bestOf, List.foldl_nil, if_neg]
    rintro ⟨-, h⟩
    exact lt_irrefl 0 h
  | cons ci rest ih =>
    intro st
    obtain ⟨b, r⟩ := st
    simp only [bestOf, List.foldl_cons] at ih ⊢
    by_cases hm : valueMatches si ci.mediaType = true
    · simp only [mq, hm, if_true]
      rcases le_or_lt ci.q b with hle | hgt
      · have hb : bmStep si (b, r) ci = (b, r) := by
          simp [bmStep, hle]
        rw [hb, ih (b, r)]
        rcases le_or_lt (mq rest si) b with h1 | h1
        · rw [if_neg, if_neg]
          · rintro ⟨hc, -⟩
            exact absurd hc (not_lt.2 (max_le hle h1))
          · rintro ⟨hc, -⟩
            exact absurd hc (not_lt.2 h1)
        · rw [max_eq_right (le_of_lt (lt_of_le_of_lt hle h1))]
      · rcases le_or_lt ci.q 0 with hq0 | hq0
        · have hb : bmStep si (b, r) ci = (b, r) := by
            rw [bmStep]
            rw [if_neg (not_le.2 hgt), if_neg]
            rintro ⟨-, h0⟩
            exact absurd h0 (not_lt.2 hq0)
          rw [hb, ih (b, r), max_eq_right (le_trans hq0 (mq_nonneg rest si))]
        · have hb : bmStep si (b, r) ci = (ci.q, some si) := by
            rw [bmStep]
            rw [if_neg (not_le.2 hgt), if_pos ⟨hm, hq0⟩]
          rw [hb, ih (ci.q, some si)]
          have hcond : b < max ci.q (mq rest si) ∧ 0 < max ci.q (mq rest si) :=
            ⟨lt_of_lt_of_le hgt (le_max_left _ _), lt_of_lt_of_le hq0 (le_max_left _ _)⟩
          rw [if_pos hcond]
          rcases le_or_lt (mq rest si) ci.q with h1 | h1
          · rw [if_neg, max_eq_left h1]
            rintro ⟨hc, -⟩
            exact absurd hc (not_lt.2 h1)
          · rw [if_pos ⟨h1, lt_trans hq0 h1⟩, max_eq_right (le_of_lt h1)]
    · have hm' : valueMatches si ci.mediaType = false := by
        rwa [Bool.not_eq_true] at hm
      have hb : bmStep si (b, r) ci = (b, r) := by
        simp [bmStep, hm']
      simp only [mq, hm', Bool.false_eq_true, if_false]
      rw [hb, ih (b, r)]

/-- `best_match(['application/json', 'text/html'])` returns JSON exactly
when JSON matches with positive best quality and HTML's best quality does
not beat it. -/
theorem bestMatch_json_html (a : List AcceptItem) :
    bestMatch a ["application/json", "text/html"] = some "application/json" ↔
      0 < mq a "application/json" ∧ mq a "text/html" ≤ mq a "application/json" := by
  have hJ : (0 : ℚ) ≤ mq a "application/json" := mq_nonneg _ _
  rw [bestMatch, List.foldl_cons, List.foldl_cons, List.foldl_nil,
    bestOf_eq a "application/json" ((-1 : ℚ), (none : Option String))]
  rcases le_or_lt (mq a "application/json") 0 with h0 | h0
  · rw [if_neg (by rintro ⟨-, h⟩; exact absurd h (not_lt.2 h0))]
    rw [bestOf_eq a "text/html" ((-1 : ℚ), (none : Option String))]
    by_cases hcond : ((-1 : ℚ), (none : Option String)).1 < mq a "text/html" ∧ 0 < mq a "text/html"
    · rw [if_pos hcond]
      constructor
      · intro hc
        rw [Option.some.injEq] at hc
        exact absurd hc (by decide)
      · rintro ⟨hj, -⟩
        exact absurd hj (not_lt.2 h0)
    · rw [if_neg hcond]
      constructor
      · intro hc
        exact absurd hc (by simp)
      · rintro ⟨hj, -⟩
        exact absurd hj (not_lt.2 h0)
  · rw [if_pos ⟨by simpa using lt_trans (show (-1 : ℚ) < 0 by norm_num) h0, h0⟩]
    rw [bestOf_eq a "text/html" (mq a "application/json", some "application/json")]
    by_cases h2 : mq a "application/json" < mq a "text/html"
    · rw [if_pos ⟨h2, lt_trans h0 h2⟩]
      constructor
      · intro hc
        rw [Option.some.injEq] at hc
        exact absurd hc (by decide)
      · rintro ⟨-, hle⟩
        exact absurd h2 (not_lt.2 hle)
    · rw [if_neg (by rintro ⟨hc, -⟩; exact h2 hc)]
      constructor
      · intro _
        exact ⟨h0, not_lt.1 h2⟩
      · intro _
        rfl

/-- On a client list sorted by descending quality with nonnegative
weights — the shape werkzeug's header parser produces — the first-match
`quality` lookup agrees with the best matching quality. -/
theorem quality_eq_mq (a : List AcceptItem)
    (hs : List.Pairwise (fun x y : AcceptItem => y.q ≤ x.q) a)
    (hn : ∀ it ∈ a, 0 ≤ it.q) (key : String) :
    quality a key = mq a key := by
  induction a with
  | nil => rfl
  | cons it rest ih =>
    rw [List.pairwise_cons] at hs
    obtain ⟨hhead, htail⟩ := hs
    by_cases hm : valueMatches key it.mediaType = true
    · simp only [quality, mq, hm, if_true]
      have hb : mq rest key ≤ it.q :=
        mq_le_of_bound rest key it.q (hn it (by simp)) (fun x hx => hhead x hx)
      exact (max_eq_left hb).symm
    · have hm' : valueMatches key it.mediaType = false := by
        rwa [Bool.not_eq_true] at hm
      simp only [quality, mq, hm', if_false]
      exact ih htail (fun x hx => hn x (by simp [hx]))

/-! ### Lemmas about the breadcrumb fold -/

/-- The default-valued last element of a list extended on the right. -/
theorem getLastD_append_singleton (l : List String) (a d : String) :
    (l ++ [a]).getLastD d = a := by
  induction l with
  | nil => rfl
  | cons x xs ih =>
    cases xs with
    | nil => rfl
    | cons y ys => simpa using ih

/-- Appending one segment on the right extends the '/'-join. -/
theorem joinSlash_concat (pre : List String) (p : String) (h : pre ≠ []) :
    joinSlash (pre ++ [p]) = joinSlash pre ++ "/" ++ p := by
  induction pre with
  | nil => exact absurd rfl h
  | cons a as ih =>
    cases as with
    | nil => rfl
    | cons b bs =>
      rw [List.cons_append]
      have hstep : joinSlash (a :: ((b :: bs) ++ [p])) = a ++ "/" ++ joinSlash ((b :: bs) ++ [p]) := by
        rw [List.cons_append]
        rfl
      have hfold : joinSlash (a :: b :: bs) = a ++ "/" ++ joinSlash (b :: bs) := rfl
      rw [hstep, ih (by simp), hfold]
      simp [String.append_assoc]

/-- The breadcrumb fold continuing from a non-empty accumulator appends
the running paths from the accumulator's last entry. -/
theorem foldl_crumb (rest : List String) :
    ∀ (ap : List String) (L : String), ap ≠ [] → ap.getLastD "" = L →
      rest.foldl crumbStep ap = ap ++ crumbsFrom L rest := by
  induction rest with
  | nil =>
    intro ap L _ _
    simp [crumbsFrom]
  | cons p ps ih =>
    intro ap L hne hlast
    rw [List.foldl_cons]
    have h1 : crumbStep ap p = ap ++ [L ++ "/" ++ p] := by
      rw [crumbStep, if_neg (by simpa [List.isEmpty_iff] using hne), hlast]
    rw [h1, ih (ap ++ [L ++ "/" ++ p]) (L ++ "/" ++ p) (by simp)
      (getLastD_append_singleton ap (L ++ "/" ++ p) "")]
    rw [crumbsFrom]
    simp

/-- The running paths from a joined non-empty head are the '/'-joins of
the extended segment lists. -/
theorem crumbsFrom_join (rest : List String) :
    ∀ (pre : List String), pre ≠ [] →
      crumbsFrom (joinSlash pre) rest
        = (List.range rest.length).map (fun i => joinSlash (pre ++ rest.take (i + 1))) := by
  induction rest with
  | nil =>
    intro pre _
    simp [crumbsFrom]
  | cons p ps ih =>
    intro pre hpre
    rw [crumbsFrom, ← joinSlash_concat pre p hpre, ih (pre ++ [p]) (by simp)]
    rw [List.length_cons, List.range_succ_eq_map, List.map_cons, List.map_map]
    have hhead : joinSlash (pre ++ [p]) = joinSlash (pre ++ (p :: ps).take (0 + 1)) := by
      simp
    have htail : ((fun i => joinSlash (pre ++ (p :: ps).take (i + 1))) ∘ Nat.succ)
        = fun i => joinSlash (pre ++ [p] ++ ps.take (i + 1)) := by
      funext i
      simp [Function.comp, List.take_succ_cons, List.append_assoc]
    rw [hhead, htail]

/-- `appended_paths` lists exactly the '/'-joins of the non-empty
segment-list heads: entry `i` is the join of the first `i + 1`
segments. -/
theorem appendedPaths_eq (segs : List String) :
    appendedPaths segs = (List.range segs.length).map (fun i => joinSlash (segs.take (i + 1))) := by
  cases segs with
  | nil => rfl
  | cons s rest =>
    have h0 : crumbStep [] s = [s] := rfl
    rw [appendedPaths, List.foldl_cons, h0, foldl_crumb rest [s] s (by simp) rfl]
    have hj : crumbsFrom s rest = crumbsFrom (joinSlash [s]) rest := rfl
    rw [hj, crumbsFrom_join rest [s] (by simp)]
    rw [List.length_cons, List.range_succ_eq_map, List.map_cons, List.map_map]
    have hhead : joinSlash ((s :: rest).take (0 + 1)) = s := rfl
    have htail : ((fun i => joinSlash ((s :: rest).take (i + 1))) ∘ Nat.succ)
        = fun i => joinSlash ([s] ++ rest.take (i + 1)) := by
      funext i
      simp [Function.comp, List.take_succ_cons]
    rw [hhead, htail]
    rfl

/-! ### Claims -/

/-- C1, counterexample: with the `redirect` parameter absent, the
"attempt direct redirect" flag computed by `_search_html` is false, and
an HTML-shaped search with an available direct result renders the normal
result page instead of attempting the direct redirect — so the flag is
not true regardless of the caller's redirect parameter. -/
theorem dxr_c1_counterexample :
    shouldRedirect none = false
    ∧ searchHtml (some ("main.c", 5)) okEmptyResults none "moz" "foo" false 0 100 cfgMoz
        = Resp.searchPage [] (htmlTemplateVars "moz" "foo" false cfgMoz) 200 :=
  ⟨rfl, rfl⟩

/-- C1, amended: the "attempt direct redirect" flag equals the test
`redirect == 'true'`; whenever the caller's redirect parameter is not the
literal string `'true'` (absent included), the flag is false and
`_search_html` performs the normal search, ignoring any direct result. -/
theorem dxr_c1_amended (rp : Option String) (dr : Option (String × Nat))
    (res : Nat → Nat → Except BadTerm (List SearchHit)) (tree qt : String) (ic : Bool)
    (o l : Nat) (cfg : Config) (h : rp ≠ some "true") :
    shouldRedirect rp = false
    ∧ searchHtml dr res rp tree qt ic o l cfg = htmlNormalSearch res tree qt ic o l cfg
    ∧ (∀ rp' : Option String, shouldRedirect rp' = true ↔ rp' = some "true") := by
  have hflag : shouldRedirect rp = false := by
    rw [shouldRedirect]
    exact beq_eq_false_iff_ne.2 h
  refine ⟨hflag, ?_, ?_⟩
  · rw [searchHtml.eq_def, hflag]
    simp
  · intro rp'
    rw [shouldRedirect]
    exact beq_iff_eq

/-- C1 witness: the amended statement at the concrete counterexample
input. -/
theorem dxr_c1_amended_witness :
    shouldRedirect none = false
    ∧ searchHtml (some ("main.c", 5)) okEmptyResults none "moz" "foo" false 0 100 cfgMoz
        = htmlNormalSearch okEmptyResults "moz" "foo" false 0 100 cfgMoz
    ∧ (∀ rp' : Option String, shouldRedirect rp' = true ↔ rp' = some "true") :=
  dxr_c1_amended none (some ("main.c", 5)) okEmptyResults "moz" "foo" false 0 100 cfgMoz
    (by decide)

/-- C2, counterexample: a `browse` request naming a tree absent from the
registry, whose path is not on disk, escapes as an unhandled `KeyError`
from the `config['ES_ALIASES'][tree]` lookup instead of terminating with
a well-formed 404 response. -/
theorem dxr_c2_counterexample :
    browse cfgMoz noDisk noDisk emptyListing plainIcon "ghost" "x"
      = Outcome.unhandled "KeyError" :=
  rfl

/-- C2, amended: the `search` route does resolve the tree against the
registry first and terminates with a well-formed 404 for an unknown tree;
the `browse` route performs no such check, and a tree without an ES alias
whose path is not served from disk makes the request fail with an
unhandled `KeyError` rather than a 404. -/
theorem dxr_c2_amended (cfg : Config) (res : String → Nat → Nat → Except BadTerm (List SearchHit))
    (dr : Option (String × Nat)) (req : RawRequest) (d f : String → Bool)
    (listing : String → String → List EsEntry) (iconFn : String → String) (tree path : String)
    (h1 : lookupStr cfg.trees tree = none)
    (h2 : lookupStr cfg.esAliases tree = none)
    (h3 : d (pathJoin (_tree_folder cfg.instancePath tree) path) = true
          ∨ f (pathJoin (_tree_folder cfg.instancePath tree) (path ++ ".html")) = false) :
    searchRoute cfg res dr req tree = Outcome.ok (Resp.notFound (some ("No such tree as " ++ tree)))
    ∧ browse cfg d f listing iconFn tree path = Outcome.unhandled "KeyError" := by
  constructor
  · rw [searchRoute, if_pos (by rw [h1]; rfl)]
  · rw [browse]
    have hfa : (match _html_file_path d (_tree_folder cfg.instancePath tree) path with
        | some fp =>
          if f (pathJoin (_tree_folder cfg.instancePath tree) fp) = true then some fp else none
        | none => none) = (none : Option String) := by
      rcases h3 with hd | hf
      · rw [_html_file_path, if_pos hd]
      · rw [_html_file_path]
        by_cases hdir : d (pathJoin (_tree_folder cfg.instancePath tree) path) = true
        · rw [if_pos hdir]
        · rw [if_neg hdir]
          simp [hf]
    simp only [hfa, h2]

/-- C2 witness: the amended statement at a concrete configuration with
one registered tree and the unknown tree name "ghost". -/
theorem dxr_c2_amended_witness :
    searchRoute cfgMoz okResultsByAlias none emptyReq "ghost"
        = Outcome.ok (Resp.notFound (some ("No such tree as " ++ "ghost")))
    ∧ browse cfgMoz noDisk noDisk emptyListing plainIcon "ghost" "x"
        = Outcome.unhandled "KeyError" :=
  dxr_c2_amended cfgMoz okResultsByAlias none emptyReq noDisk noDisk emptyListing plainIcon
    "ghost" "x" (by decide) (by decide) (Or.inr rfl)

/-- C3: the negotiator picks structured (JSON) output exactly when the
JSON media type matches the client's preferences with positive weight
that strictly exceeds the HTML media type's weight (so JSON is the single
best match); in particular a wildcard Accept and equal JSON/HTML weights
yield rendered output, and a JSON-only Accept yields structured output.
The hypotheses say the parsed header is sorted by descending quality with
nonnegative weights, which is what werkzeug's header parser produces. -/
theorem dxr_c3_negotiation (a : List AcceptItem)
    (hs : List.Pairwise (fun x y : AcceptItem => y.q ≤ x.q) a)
    (hn : ∀ it ∈ a, 0 ≤ it.q) :
    (requestWantsJson a = true ↔
      (0 < quality a "application/json"
        ∧ quality a "text/html" < quality a "application/json"))
    ∧ requestWantsJson acceptWildcard = false
    ∧ requestWantsJson acceptEqual = false
    ∧ requestWantsJson acceptJsonOnly = true := by
  refine ⟨?_, by decide, by decide, by decide⟩
  rw [requestWantsJson, Bool.and_eq_true, decide_eq_true_eq, decide_eq_true_eq,
    bestMatch_json_html, quality_eq_mq a hs hn "text/html",
    quality_eq_mq a hs hn "application/json"]
  constructor
  · rintro ⟨⟨hj, -⟩, hlt⟩
    exact ⟨hj, hlt⟩
  · rintro ⟨hj, hlt⟩
    exact ⟨⟨hj, le_of_lt hlt⟩, hlt⟩

/-- C3 witness: the negotiation characterization at the equal-weights
header. -/
theorem dxr_c3_negotiation_witness :
    (requestWantsJson acceptEqual = true ↔
      (0 < quality acceptEqual "application/json"
        ∧ quality acceptEqual "text/html" < quality acceptEqual "application/json"))
    ∧ requestWantsJson acceptWildcard = false
    ∧ requestWantsJson acceptEqual = false
    ∧ requestWantsJson acceptJsonOnly = true :=
  dxr_c3_negotiation acceptEqual (by decide) (by decide)

/-- C4: offset normalizes to the raw value exactly when it parses as a
non-negative integer and to 0 otherwise; limit normalizes to the parsed
non-negative value (default 100) clamped by `min` to 1000, so an
oversized limit is silently clamped and never errors. -/
theorem dxr_c4_params (o l : Option String) :
    normalizedOffset o = (match o with
      | none => 0
      | some s =>
        match pyInt s with
        | some i => if 0 ≤ i then i.toNat else 0
        | none => 0)
    ∧ normalizedLimit l = min (match l with
      | none => 100
      | some s =>
        match pyInt s with
        | some i => if 0 ≤ i then i.toNat else 100
        | none => 100) 1000
    ∧ normalizedLimit l ≤ 1000
    ∧ normalizedLimit (some "5000") = 1000
    ∧ normalizedLimit (some "") = 100
    ∧ normalizedLimit (some "10") = 10
    ∧ normalizedOffset (some "-3") = 0
    ∧ normalizedOffset none = 0 := by
  refine ⟨?_, ?_, min_le_right _ _, by decide, by decide, by decide, by decide, rfl⟩
  · cases o with
    | none => rfl
    | some s =>
      cases hp : pyInt s with
      | none => simp [normalizedOffset, non_negative_int, hp]
      | some i => simp [normalizedOffset, non_negative_int, hp]
  · cases l with
    | none => rfl
    | some s =>
      cases hp : pyInt s with
      | none => simp [normalizedLimit, non_negative_int, hp]
      | some i => simp [normalizedLimit, non_negative_int, hp]

/-- C5: when the paged index query rejects the query term, the structured
dispatcher returns the 400 JSON error object carrying the reason, and the
rendered dispatcher — whenever it actually runs the paged query, i.e.
when it is not short-circuited by a requested direct redirect — renders
the 400 error page carrying the reason; neither lets the error escape. -/
theorem dxr_c5_badterm (res : Nat → Nat → Except BadTerm (List SearchHit)) (e : BadTerm)
    (dr : Option (String × Nat)) (rp : Option String) (tree qt : String) (ic : Bool)
    (offset limit : Nat) (cfg : Config)
    (h : res offset limit = Except.error e) :
    searchJson res tree qt ic offset limit cfg = Resp.jsonErr e.reason "warning" 400
    ∧ (rp ≠ some "true" ∨ dr = none →
        searchHtml dr res rp tree qt ic offset limit cfg
          = Resp.errorPage e.reason (htmlTemplateVars tree qt ic cfg) 400) := by
  have hnorm : htmlNormalSearch res tree qt ic offset limit cfg
      = Resp.errorPage e.reason (htmlTemplateVars tree qt ic cfg) 400 := by
    rw [htmlNormalSearch.eq_def, h]
  constructor
  · rw [searchJson.eq_def, h]
  · intro hcase
    rcases hcase with hrp | hdr
    · have hflag : shouldRedirect rp = false := by
        rw [shouldRedirect]
        exact beq_eq_false_iff_ne.2 hrp
      rw [searchHtml.eq_def, hflag]
      simpa using hnorm
    · subst hdr
      rw [searchHtml.eq_def]
      by_cases hflag : shouldRedirect rp = true
      · rw [hflag]
        simpa using hnorm
      · rw [Bool.not_eq_true] at hflag
        rw [hflag]
        simpa using hnorm

/-- C5 witness: the bad-term behavior at a concrete always-rejecting
index. -/
theorem dxr_c5_badterm_witness :
    searchJson badTermResults "moz" "q" false 0 100 cfgMoz
        = Resp.jsonErr "Bad term: <code>regexp:(</code>" "warning" 400
    ∧ ((none : Option String) ≠ some "true" ∨ (none : Option (String × Nat)) = none →
        searchHtml none badTermResults none "moz" "q" false 0 100 cfgMoz
          = Resp.errorPage "Bad term: <code>regexp:(</code>"
              (htmlTemplateVars "moz" "q" false cfgMoz) 400) :=
  dxr_c5_badterm badTermResults ⟨"Bad term: <code>regexp:(</code>"⟩ none none "moz" "q" false
    0 100 cfgMoz rfl

/-- C6: when a browse request is not served as a prerendered file
artifact (its path is a directory, or the artifact does not exist) and
the tree has an index alias, the request fails with `NotFound` exactly
when the index folder-listing query yields zero entries; with at least
one entry the folder listing is rendered. -/
theorem dxr_c6_listing (cfg : Config) (d f : String → Bool)
    (listing : String → String → List EsEntry) (iconFn : String → String)
    (tree path al : String)
    (hal : lookupStr cfg.esAliases tree = some al)
    (hns : d (pathJoin (_tree_folder cfg.instancePath tree) path) = true
           ∨ f (pathJoin (_tree_folder cfg.instancePath tree) (path ++ ".html")) = false) :
    (browse cfg d f listing iconFn tree path = Outcome.ok (Resp.notFound none)
       ↔ listing al path = [])
    ∧ (listing al path ≠ [] →
        browse cfg d f listing iconFn tree path
          = Outcome.ok (Resp.folderPage (folderVars cfg iconFn tree path (listing al path)) 200)) := by
  have hbrowse : browse cfg d f listing iconFn tree path
      = (if (listing al path).isEmpty then Outcome.ok (Resp.notFound none)
         else Outcome.ok (Resp.folderPage (folderVars cfg iconFn tree path (listing al path)) 200)) := by
    rw [browse]
    have hfa : (match _html_file_path d (_tree_folder cfg.instancePath tree) path with
        | some fp =>
          if f (pathJoin (_tree_folder cfg.instancePath tree) fp) = true then some fp else none
        | none => none) = (none : Option String) := by
      rcases hns with hd | hf
      · rw [_html_file_path, if_pos hd]
      · rw [_html_file_path]
        by_cases hdir : d (pathJoin (_tree_folder cfg.instancePath tree) path) = true
        · rw [if_pos hdir]
        · rw [if_neg hdir]
          simp [hf]
    simp only [hfa, hal]
  rw [hbrowse]
  by_cases hemp : (listing al path).isEmpty = true
  · have hnil : listing al path = [] := List.isEmpty_iff.1 hemp
    rw [if_pos hemp]
    exact ⟨⟨fun _ => hnil, fun _ => rfl⟩, fun hne => absurd hnil hne⟩
  · have hne : listing al path ≠ [] := by
      simpa [List.isEmpty_iff] using hemp
    rw [if_neg hemp]
    constructor
    · constructor
      · intro hc
        simp at hc
      · intro h0
        exact absurd h0 hne
    · intro _
      rfl

/-- C6 witness: the empty-listing direction at a concrete configuration. -/
theorem dxr_c6_listing_witness :
    (browse cfgMoz noDisk noDisk emptyListing plainIcon "moz" "src"
        = Outcome.ok (Resp.notFound none) ↔ emptyListing "dxr_moz" "src" = [])
    ∧ (emptyListing "dxr_moz" "src" ≠ [] →
        browse cfgMoz noDisk noDisk emptyListing plainIcon "moz" "src"
          = Outcome.ok (Resp.folderPage
              (folderVars cfgMoz plainIcon "moz" "src" (emptyListing "dxr_moz" "src")) 200)) :=
  dxr_c6_listing cfgMoz noDisk noDisk emptyListing plainIcon "moz" "src" "dxr_moz"
    (by decide) (Or.inr rfl)

/-- The `parallel` view always redirects: to the parallel source path
when the path is a directory in the target tree or its prerendered
artifact exists, and to the target tree's source root otherwise. -/
theorem parallel_eq (cfg : Config) (d f : String → Bool) (tree path : String) :
    parallel cfg d f tree path =
      Resp.redirect
        (if d (pathJoin (_tree_folder cfg.instancePath tree) path)
            || f (pathJoin (_tree_folder cfg.instancePath tree) (path ++ ".html"))
         then cfg.wwwRoot ++ "/" ++ tree ++ "/source/" ++ path
         else cfg.wwwRoot ++ "/" ++ tree ++ "/source/") := by
  rw [parallel, _html_file_path]
  by_cases hd : d (pathJoin (_tree_folder cfg.instancePath tree) path) = true
  · rw [if_pos hd]
    simp [hd]
  · rw [if_neg hd]
    have hd' : d (pathJoin (_tree_folder cfg.instancePath tree) path) = false := by
      rwa [Bool.not_eq_true] at hd
    by_cases hf : f (pathJoin (_tree_folder cfg.instancePath tree) (path ++ ".html")) = true
    · simp [hd', hf]
    · have hf' : f (pathJoin (_tree_folder cfg.instancePath tree) (path ++ ".html")) = false := by
        rwa [Bool.not_eq_true] at hf
      simp [hd', hf']

/-- C7: a parallel-tree request redirects to the same path under the
target tree's `/source/` when an equivalent entity exists there — the
path is a directory in the artifact store, or its prerendered
`path + '.html'` artifact exists — and to the target tree's source root
otherwise. -/
theorem dxr_c7_parallel (cfg : Config) (d f : String → Bool) (tree path : String) :
    parallel cfg d f tree path =
      Resp.redirect
        (if d (pathJoin (_tree_folder cfg.instancePath tree) path)
            || f (pathJoin (_tree_folder cfg.instancePath tree) (path ++ ".html"))
         then cfg.wwwRoot ++ "/" ++ tree ++ "/source/" ++ path
         else cfg.wwwRoot ++ "/" ++ tree ++ "/source/") :=
  parallel_eq cfg d f tree path

/-- C8: serializing a normalized query text and case flag into a
per-tree search link and re-normalizing the link's parameters the way the
`search` view does reproduces the same query text and case flag; a
case-insensitive query omits the `case` parameter, which re-normalizes to
false. -/
theorem dxr_c8_roundtrip (trees : List (String × String)) (tree qt : String) (flag : Bool)
    (tup : String × SearchLinkParams × String)
    (h : tup ∈ _tree_tuples trees tree qt flag) :
    normQ (some tup.2.1.q) = qt ∧ normCase tup.2.1.case = flag := by
  rw [_tree_tuples] at h
  obtain ⟨td, -, rfl⟩ := List.mem_map.1 h
  refine ⟨rfl, ?_⟩
  cases flag <;> rfl

/-- C8 witness: the round trip at a concrete case-insensitive link. -/
theorem dxr_c8_roundtrip_witness :
    normQ (some "hello") = "hello" ∧ normCase (none : Option String) = false :=
  dxr_c8_roundtrip [("moz", "Mozilla")] "moz" "hello" false
    ("moz", ⟨"moz", "hello", none⟩, "Mozilla") (by decide)

/-- C9: the breadcrumb partial paths computed by `browse` from
`path.split('/')` satisfy the invariant that entry `i` is the '/'-join of
the first `i + 1` segments; in particular `"a/b/c"` yields
`["a", "a/b", "a/b/c"]`. -/
theorem dxr_c9_breadcrumbs :
    (∀ path : String,
      appendedPaths (splitSlash path)
        = (List.range (splitSlash path).length).map
            (fun i => joinSlash ((splitSlash path).take (i + 1))))
    ∧ appendedPaths (splitSlash "a/b/c") = ["a", "a/b", "a/b/c"] :=
  ⟨fun path => appendedPaths_eq (splitSlash path), by decide⟩

/-- C10: the tree-root view redirects to the literal relative string
`tree + '/source/'`, taking no notice of the configured root URL, while
the redirect targets built by `parallel` and by the direct-result branch
of `_search_html` are `WWW_ROOT`-prefixed absolute paths; a relative
target such as `"moz/source/"` does not start with a root like
`"/www"`. -/
theorem dxr_c10_tree_root :
    (∀ tree : String, tree_root tree = Resp.redirect (tree ++ "/source/"))
    ∧ strStartsWith ("moz" ++ "/source/") "/www" = false
    ∧ (∀ (cfg : Config) (d f : String → Bool) (tree path : String),
        parallel cfg d f tree path
            = Resp.redirect (cfg.wwwRoot ++ "/" ++ tree ++ "/source/" ++ path)
          ∨ parallel cfg d f tree path
            = Resp.redirect (cfg.wwwRoot ++ "/" ++ tree ++ "/source/"))
    ∧ (∀ (cfg : Config) (res : Nat → Nat → Except BadTerm (List SearchHit))
         (p : String) (ln : Nat) (tree qt : String) (ic : Bool) (o l : Nat),
        searchHtml (some (p, ln)) res (some "true") tree qt ic o l cfg
          = Resp.redirect (cfg.wwwRoot ++ "/" ++ tree ++ "/source/" ++ p ++ "?from=" ++ qt
              ++ (if ic then "&case=true" else "") ++ "#" ++ toString ln)) := by
  refine ⟨fun tree => rfl, by decide, ?_, ?_⟩
  · intro cfg d f tree path
    rw [parallel_eq]
    by_cases hc : (d (pathJoin (_tree_folder cfg.instancePath tree) path)
        || f (pathJoin (_tree_folder cfg.instancePath tree) (path ++ ".html"))) = true
    · rw [if_pos hc]
      exact Or.inl rfl
    · rw [if_neg hc]
      exact Or.inr rfl
  · intro cfg res p ln tree qt ic o l
    rfl
